import Mathlib

/-!
Verification of the Chord DHT core described in `spec.md` of the
Chord-DHT-graphi-viz repository.  The repository ships only its test suite
(`tests/test_node.py`), example drivers (`examples/basic_example.py`,
`examples/performance_test.py`) and packaging metadata; the `Node.py` and
`Network.py` modules they import are not present.  Every operation below is
therefore modelled from the specification (section references are to
`spec.md`), with the shipped tests pinning concrete behavior where the spec
leaves a name or value open.  Following the design note in spec §9, nodes
live in an arena owned by the network and refer to one another through
integer identifiers.
-/

namespace Chord

/-- Byte strings: stored values are sequences of bytes (each < 256). -/
abbrev Bytes := List Nat

/-! ## Identifier arithmetic (spec §4.1), modelled from the spec. -/

/-- Modelled from the spec: `distance(a, b)` of `Node.py` (absent from src/),
the forward arc length `(b - a) mod R` on the ring of size `R`, computed
here with natural-number arithmetic. -/
def distance (R a b : Nat) : Nat :=
  (b % R + R - a % R) % R

/-- Modelled from the spec: `in_open_open(x, a, b)` of `Node.py` (absent from
src/): true iff `x` lies strictly between `a` and `b` walking clockwise; when
`a = b` the interval covers the whole ring except `a` (spec §4.1). -/
def in_open_open (R x a b : Nat) : Bool :=
  if a = b then decide (x ≠ a)
  else decide (0 < distance R a x ∧ distance R a x < distance R a b)

/-- Modelled from the spec: `in_open_closed(x, a, b)` of `Node.py` (absent
from src/): as `in_open_open` but including the endpoint `b` (spec §4.1). -/
def in_open_closed (R x a b : Nat) : Bool :=
  in_open_open R x a b || decide (x = b)

/-! ## Node state (spec §3), modelled from the spec.

Field names follow the Python attributes exercised by `tests/test_node.py`
(`node_id`, `fingers_table`, `data`, `cache`, `backup_data`, `metrics`,
`last_heartbeat`).  Successor, predecessor and finger entries are arena
handles (node identifiers), per the design note in spec §9.  The
class-level `ring_size` attribute is carried as the derived value `2 ^ m`. -/

/-- Lookup metrics counters (spec §3: lookups attempted / succeeded / failed). -/
structure Metrics where
  lookups : Nat
  successful_lookups : Nat
  failed_lookups : Nat
deriving Repr, DecidableEq

/-- Backup snapshot a node pushes to its successor (spec §4.3 Failure):
the pushing node's identifier together with a copy of its data.  The spec
calls the identifier field `predecessor_id`; the shipped test
`test_backup_creation` reads it as `node_id`, which is the name kept here. -/
structure BackupData where
  node_id : Nat
  data : List (Nat × Bytes)
deriving Repr, DecidableEq

/-- Modelled from the spec: the `Node` class of `Node.py` (absent from
src/), spec §3.  `data` and `cache` are association lists standing for the
Python dicts; `predecessor = none` is the "unknown" sentinel. -/
structure Node where
  node_id : Nat
  m : Nat
  successor : Nat
  predecessor : Option Nat
  fingers_table : List Nat
  data : List (Nat × Bytes)
  cache : List (Nat × Nat)
  backup_data : Option BackupData
  metrics : Metrics
  last_heartbeat : Nat
deriving Repr, DecidableEq

/-- The ring size `2 ^ m` shared by all nodes (`Node.ring_size` in the
source is a class attribute always set to `2 ** m`). -/
def Node.ring_size (n : Node) : Nat := 2 ^ n.m

/-- Modelled from the spec: `Node.__init__` of `Node.py` (absent from src/).
Spec §3 Lifecycle: a node is created with `id` and `m`, its successor,
predecessor and all `m` finger entries initialized to self; counters start
at zero (`test_node_initialization`, `test_metrics_update`). -/
def Node.init (id m : Nat) : Node where
  node_id := id
  m := m
  successor := id
  predecessor := some id
  fingers_table := List.replicate m id
  data := []
  cache := []
  backup_data := none
  metrics := { lookups := 0, successful_lookups := 0, failed_lookups := 0 }
  last_heartbeat := 0

/-! ## Association-list helpers standing for Python dict update / lookup. -/

/-- Dict write `d[k] = v`: last write wins under the same key (spec §4.1). -/
def alInsert (k : Nat) (v : Bytes) (d : List (Nat × Bytes)) : List (Nat × Bytes) :=
  (k, v) :: d.filter (fun p => p.1 ≠ k)

/-- Dict read `d.get(k)`. -/
def alLookup (k : Nat) (d : List (Nat × Bytes)) : Option Bytes :=
  (d.find? (fun p => p.1 = k)).map (fun p => p.2)

/-! ## Node-local operations (spec §4.2), modelled from the spec. -/

/-- Modelled from the spec: `Node.encrypt_data` of `Node.py` (absent from
src/).  Spec §1/§4.2 treat encryption as an opaque invertible byte-wise
codec; it is modelled as a byte-wise shift cipher, which makes the
ciphertext differ from the plaintext as `test_data_encryption_decryption`
requires. -/
def encrypt_data (v : Bytes) : Bytes :=
  v.map (fun b => (b + 7) % 256)

/-- Modelled from the spec: `Node.decrypt_data` of `Node.py` (absent from
src/), the inverse byte-wise codec. -/
def decrypt_data (v : Bytes) : Bytes :=
  v.map (fun b => (b + 249) % 256)

/-- Modelled from the spec: `Node.put` (spec §4.2): store the encoded value
under the key, `data[key] = encode(value)`. -/
def Node.put (n : Node) (k : Nat) (v : Bytes) : Node :=
  { n with data := alInsert k (encrypt_data v) n.data }

/-- Modelled from the spec: `Node.get` (spec §4.2): decode the stored bytes
under the key, or report not-found. -/
def Node.get (n : Node) (k : Nat) : Option Bytes :=
  (alLookup k n.data).map decrypt_data

/-- Modelled from the spec: `Node.cache_store` (spec §4.2): remember a node
handle as the lookup hint for a key (the bound on the cache is left
unspecified by the spec and is not modelled). -/
def Node.cache_store (n : Node) (k : Nat) (ref : Nat) : Node :=
  { n with cache := (k, ref) :: n.cache.filter (fun p => p.1 ≠ k) }

/-- Modelled from the spec: `Node.cache_lookup` (spec §4.2): the cached
handle for a key, or `none` on a miss. -/
def Node.cache_lookup (n : Node) (k : Nat) : Option Nat :=
  (n.cache.find? (fun p => p.1 = k)).map (fun p => p.2)

/-- Modelled from the spec: `Node.check_load` of `Node.py` (absent from
src/).  The spec does not describe it; `test_load_calculation` pins it as
the number of stored keys divided by the ring size, a pure observer. -/
def Node.check_load (n : Node) : ℚ :=
  (n.data.length : ℚ) / (n.ring_size : ℚ)

/-- Modelled from the spec: `Node.update_metrics` of `Node.py` (absent from
src/).  Spec §3 lists counters for lookups attempted / succeeded / failed;
`test_metrics_update` pins the increments. -/
def Node.update_metrics (n : Node) (lookup_success : Bool) : Node :=
  { n with metrics :=
      { lookups := n.metrics.lookups + 1
        successful_lookups :=
          n.metrics.successful_lookups + (if lookup_success then 1 else 0)
        failed_lookups :=
          n.metrics.failed_lookups + (if lookup_success then 0 else 1) } }

/-! ## Network state (spec §3, §4.4), modelled from the spec. -/

/-- Modelled from the spec: the `Network` class of `Network.py` (absent from
src/), spec §3: the bit-width `m`, the arena of live nodes, and the
bootstrap node handle (`first_node` in `examples/basic_example.py`). -/
structure Network where
  m : Nat
  nodes : List Node
  first_node : Nat
deriving Repr, DecidableEq

/-- Dereference an arena handle: the live node with the given identifier. -/
def getNode (net : Network) (i : Nat) : Option Node :=
  net.nodes.find? (fun x => x.node_id = i)

/-- Apply `f` to the node with the given identifier, in place. -/
def updateNode (net : Network) (i : Nat) (f : Node → Node) : Network :=
  { net with nodes := net.nodes.map (fun x => if x.node_id = i then f x else x) }

/-- Admit a node into the arena. -/
def appendNode (net : Network) (n : Node) : Network :=
  { net with nodes := net.nodes ++ [n] }

/-- Drop the node with the given identifier from the arena. -/
def removeNode (net : Network) (id : Nat) : Network :=
  { net with nodes := net.nodes.filter (fun x => x.node_id ≠ id) }

/-- Set a node's successor; finger entry 0 is kept equal to the successor
(spec §3: "Entry 0 equals successor", §4.3 Fix-fingers: "Finger 0 is always
kept equal to the current successor"). -/
def setSuccessor (x : Node) (s : Nat) : Node :=
  { x with successor := s, fingers_table := x.fingers_table.set 0 s }

/-! ## Routing protocol (spec §4.2, §4.3), modelled from the spec. -/

/-- Scan of `closest_preceding_finger`: first finger (scanning from index
`m-1` down) strictly between the scanning node and the key. -/
def cpfScan (R selfId key : Nat) : List Nat → Nat
  | [] => selfId
  | f :: rest => if in_open_open R f selfId key then f else cpfScan R selfId key rest

/-- Modelled from the spec: `Node.closest_preceding_finger` of `Node.py`
(absent from src/), spec §4.2: scan fingers from index `m-1` down to 0 and
return the first whose id lies strictly between `self.id` and `key`; if
none qualifies, return self. -/
def closest_preceding_finger (n : Node) (key : Nat) : Nat :=
  cpfScan (2 ^ n.m) n.node_id key n.fingers_table.reverse

/-- Modelled from the spec: `Node.find_successor` of `Node.py` (absent from
src/), spec §4.2: if the key lies in `(self.id, successor.id]` return the
successor, otherwise delegate to the closest preceding finger.  The
unbounded delegation of the source is embedded with explicit fuel. -/
def find_successor (net : Network) : Nat → Nat → Nat → Option Nat
  | 0, _, _ => none
  | fuel + 1, nid, key =>
    match getNode net nid with
    | none => none
    | some n =>
      if in_open_closed (2 ^ n.m) key n.node_id n.successor then some n.successor
      else find_successor net fuel (closest_preceding_finger n key) key

/-- Default fuel for routing steps driven by the network supervisor. -/
def net_fuel (net : Network) : Nat :=
  net.nodes.length + 2 ^ net.m

/-- Whether `notify(cand)` makes the notified node adopt `cand` as its
predecessor (spec §4.3 Notify): yes when the predecessor is unknown or
`cand` lies strictly between the old predecessor and the node. -/
def shouldNotify (R cand : Nat) (x : Node) : Bool :=
  match x.predecessor with
  | none => true
  | some p => in_open_open R cand p x.node_id

/-- Modelled from the spec: `Node.notify` of `Node.py` (absent from src/),
spec §4.3: tighten the predecessor pointer to the candidate when warranted. -/
def notifyNode (R cand : Nat) (x : Node) : Node :=
  if shouldNotify R cand x then { x with predecessor := some cand } else x

/-- Modelled from the spec: the backup push `Node.backup_to_successor` of
`Node.py` (absent from src/), spec §4.3 Failure: the node places the
snapshot of its own id and a copy of its data in its successor's backup
slot. -/
def backup_to_successor (net : Network) (id : Nat) : Network :=
  match getNode net id with
  | none => net
  | some n =>
    updateNode net n.successor
      (fun s => { s with backup_data := some { node_id := n.node_id, data := n.data } })

/-- Bulk put (spec §4.3 Leave step 1): fold the departing node's entries
into the successor's dict, last write wins. -/
def bulkPut (dst src : List (Nat × Bytes)) : List (Nat × Bytes) :=
  src.foldl (fun d p => alInsert p.1 p.2 d) dst

/-- Leave step 2: point the departing node's predecessor (when known) at
the departing node's successor. -/
def predUpdate (net : Network) (p : Option Nat) (succ : Nat) : Network :=
  match p with
  | none => net
  | some pid => updateNode net pid (fun x => setSuccessor x succ)

/-- Modelled from the spec: graceful leave (spec §4.3 Leave): transfer all
data to the successor, splice predecessor and successor links past the
departing node, and remove it from the node set. -/
def graceful_leave (net : Network) (id : Nat) : Network :=
  match getNode net id with
  | none => net
  | some n =>
    removeNode
      (updateNode
        (predUpdate
          (updateNode net n.successor (fun s => { s with data := bulkPut s.data n.data }))
          n.predecessor n.successor)
        n.successor (fun x => { x with predecessor := n.predecessor }))
      id

/-- Possible failures of `delete_node` (spec §4.4, §6). -/
inductive DeleteError where
  | nodeNotFound
  | lastNode
deriving Repr, DecidableEq

/-- Modelled from the spec: `Network.delete_node` of `Network.py` (absent
from src/), spec §4.4: issue a graceful leave on the named node; fail if
the node is unknown or is the last remaining node. -/
def delete_node (net : Network) (id : Nat) : Except DeleteError Network :=
  if getNode net id = none then Except.error DeleteError.nodeNotFound
  else if net.nodes.length = 1 then Except.error DeleteError.lastNode
  else Except.ok (graceful_leave net id)

/-- Keys the join's successor keeps: those it still owns with the joiner in
place (spec §4.3 Join step 4). -/
def keepData (R id sid : Nat) (d : List (Nat × Bytes)) : List (Nat × Bytes) :=
  d.filter (fun kv => in_open_closed R kv.1 id sid)

/-- Keys handed off to the joiner (spec §4.3 Join step 4). -/
def movedData (R id sid : Nat) (d : List (Nat × Bytes)) : List (Nat × Bytes) :=
  d.filter (fun kv => !(in_open_closed R kv.1 id sid))

/-- The joining node after spec §4.3 Join steps 1–4: fingers initialized to
self, successor (and finger 0) set to the located successor, predecessor
unknown, handed-off data installed. -/
def joinNode (id m sid : Nat) (moved : List (Nat × Bytes)) : Node :=
  { setSuccessor (Node.init id m) sid with predecessor := none, data := moved }

/-- Modelled from the spec: `Network.insert_node` of `Network.py` (absent
from src/), spec §4.4 and §4.3 Join: locate the joiner's successor from the
bootstrap node, notify it, hand off the keys the joiner now owns, and admit
the joiner.  A duplicate id or a failed lookup leaves the network
unchanged. -/
def insert_node (net : Network) (id : Nat) : Network :=
  if (getNode net id).isSome then net
  else
    match find_successor net (net_fuel net) net.first_node id with
    | none => net
    | some sid =>
      match getNode net sid with
      | none => net
      | some s =>
        appendNode
          (updateNode net sid (fun x =>
            notifyNode (2 ^ net.m) id
              { x with data := keepData (2 ^ net.m) id x.node_id x.data }))
          (joinNode id net.m sid (movedData (2 ^ net.m) id s.node_id s.data))

/-- Stabilize step 2 (spec §4.3): adopt the successor's predecessor as the
new successor when it sits strictly between the node and its successor. -/
def stabAdopt (net : Network) (id : Nat) (n s : Node) : Network :=
  match s.predecessor with
  | none => net
  | some x =>
    if in_open_open (2 ^ net.m) x n.node_id n.successor
    then updateNode net id (fun y => setSuccessor y x)
    else net

/-- Stabilize step 3 (spec §4.3): notify the (possibly new) successor. -/
def stabNotify (net : Network) (id : Nat) : Network :=
  match getNode net id with
  | none => net
  | some n1 => updateNode net n1.successor (notifyNode (2 ^ net.m) id)

/-- Modelled from the spec: `Node.stabilize` of `Node.py` (absent from
src/), spec §4.3 Stabilize. -/
def stabilize (net : Network) (id : Nat) : Network :=
  match getNode net id with
  | none => net
  | some n =>
    match getNode net n.successor with
    | none => net
    | some s => stabNotify (stabAdopt net id n s) id

/-- Modelled from the spec: fix-fingers (spec §4.3): set finger `i` to the
successor of `(id + 2^i) mod R`; finger 0 is always kept equal to the
current successor. -/
def fix_fingers (net : Network) (id i : Nat) : Network :=
  match getNode net id with
  | none => net
  | some n =>
    if i = 0 then updateNode net id (fun y => setSuccessor y y.successor)
    else
      match find_successor net (net_fuel net) id ((n.node_id + 2 ^ i) % 2 ^ n.m) with
      | none => net
      | some f =>
        if i < n.m
        then updateNode net id (fun y => { y with fingers_table := y.fingers_table.set i f })
        else net

/-- Modelled from the spec: `Network.insert_data` routing (spec §4.4 put):
resolve the owner of the key from the bootstrap node and store there. -/
def put_data (net : Network) (key : Nat) (v : Bytes) : Network :=
  match find_successor net (net_fuel net) net.first_node key with
  | none => net
  | some owner => updateNode net owner (fun x => x.put key v)

/-- The quiescent operations the supervisor drives (spec §4.4, §5). -/
inductive NetOp where
  | insert (id : Nat)
  | delete (id : Nat)
  | putData (key : Nat) (v : Bytes)
  | stab (id : Nat)
  | fixF (id i : Nat)
  | backup (id : Nat)
deriving Repr

/-- One supervisor step; a failed `delete_node` leaves the network as is. -/
def applyOp (net : Network) : NetOp → Network
  | NetOp.insert id => insert_node net id
  | NetOp.delete id =>
    match delete_node net id with
    | Except.ok net' => net'
    | Except.error _ => net
  | NetOp.putData k v => put_data net k v
  | NetOp.stab id => stabilize net id
  | NetOp.fixF id i => fix_fingers net id i
  | NetOp.backup id => backup_to_successor net id

/-- Modelled from the spec: `Network.__init__` / `create` (spec §4.4): the
first id seeds a lone ring, the remaining ids join sequentially through it. -/
def create (m : Nat) (ids : List Nat) : Network :=
  match ids with
  | [] => { m := m, nodes := [], first_node := 0 }
  | seed :: rest =>
    rest.foldl insert_node { m := m, nodes := [Node.init seed m], first_node := seed }

/-! ## Health check (spec §4.4), modelled from the spec. -/

/-- Health check (a): the node's successor is live and points back. -/
def succAlive (net : Network) (n : Node) : Bool :=
  match getNode net n.successor with
  | none => false
  | some s => s.predecessor = some n.node_id

/-- Health check (b): finger entry 0 equals the successor, for every node. -/
def fingers0Check (net : Network) : Bool :=
  net.nodes.all (fun n => n.fingers_table[0]? = some n.successor)

/-- Health check (c): no key is stored by more than one node. -/
def uniqueKeysCheck (net : Network) : Bool :=
  decide (net.nodes.map (fun n => n.data.map (fun p => p.1))).flatten.Nodup

/-- Health check (d): every stored key satisfies the ownership predicate. -/
def ownershipCheck (net : Network) : Bool :=
  net.nodes.all (fun n =>
    match n.predecessor with
    | none => true
    | some p => n.data.all (fun kv => in_open_closed (2 ^ n.m) kv.1 p n.node_id))

/-- Modelled from the spec: `Network.check_network_health` of `Network.py`
(absent from src/), spec §4.4: a mapping of named checks to boolean status. -/
def check_network_health (net : Network) : List (String × Bool) :=
  [("successor_predecessor_consistent", net.nodes.all (succAlive net)),
   ("fingers0_matches_successor", fingers0Check net),
   ("unique_key_ownership", uniqueKeysCheck net),
   ("keys_owned_by_successor", ownershipCheck net)]

/-- The finger-0 invariant of spec §3 and §8: every live node's finger
entry 0 equals its successor. -/
def Finger0Inv (net : Network) : Prop :=
  ∀ n ∈ net.nodes, n.fingers_table[0]? = some n.successor

/-- A single lone network used as a concrete input by several witnesses. -/
def loneNet : Network :=
  { m := 4, nodes := [Node.init 0 4], first_node := 0 }

/-! ## Theorems: identifier arithmetic -/

/-- C5: for identifiers `a`, `b` in `[0, R)` with `R = 2^m`, `distance a b`
is the forward arc length `(b - a) mod R`, and `distance a a = 0`. -/
theorem distance_forward_arc (m a b : Nat) (ha : a < 2 ^ m) (hb : b < 2 ^ m) :
    (distance (2 ^ m) a b : ℤ) = ((b : ℤ) - (a : ℤ)) % ((2 ^ m : Nat) : ℤ) ∧
    distance (2 ^ m) a a = 0 := by
  constructor
  · have h1 : distance (2 ^ m) a b = (b + 2 ^ m - a) % 2 ^ m := by
      rw [distance, Nat.mod_eq_of_lt ha, Nat.mod_eq_of_lt hb]
    have h2 : ((b + 2 ^ m - a : Nat) : ℤ) = (b : ℤ) + ((2 ^ m : Nat) : ℤ) - a := by
      omega
    rw [h1]
    push_cast [h2]
    rw [show (b : ℤ) + ((2 : ℤ) ^ m) - a = ((b : ℤ) - a) + 2 ^ m * 1 by ring,
      Int.add_mul_emod_self_left]
  · have h3 : a % 2 ^ m + 2 ^ m - a % 2 ^ m = 2 ^ m := by omega
    rw [distance, h3, Nat.mod_self]

/-- Witness for C5 at the spec's concrete examples (m = 4). -/
theorem distance_forward_arc_witness :
    distance (2 ^ 4) 15 1 = 2 ∧ distance (2 ^ 4) 10 5 = 11 ∧
    ((distance (2 ^ 4) 15 1 : ℤ) = ((1 : ℤ) - (15 : ℤ)) % ((2 ^ 4 : Nat) : ℤ) ∧
     distance (2 ^ 4) 15 15 = 0) :=
  ⟨by decide, by decide, distance_forward_arc 4 15 1 (by decide) (by decide)⟩

/-! ## Theorems: node-local operations -/

/-- C6: a freshly constructed node is its own successor and predecessor and
all `m` finger-table entries point to itself. -/
theorem node_init_self (id m : Nat) (h : id < 2 ^ m) :
    (Node.init id m).successor = id ∧
    (Node.init id m).predecessor = some id ∧
    (Node.init id m).fingers_table.length = m ∧
    ∀ i, i < m → (Node.init id m).fingers_table[i]? = some id := by
  refine ⟨rfl, rfl, by simp [Node.init], ?_⟩
  intro i hi
  simp [Node.init, List.getElem?_replicate, hi]

/-- Witness for C6 at id 3, m = 4. -/
theorem node_init_self_witness :
    (Node.init 3 4).successor = 3 ∧ (Node.init 3 4).fingers_table[0]? = some 3 :=
  ⟨(node_init_self 3 4 (by decide)).1,
   (node_init_self 3 4 (by decide)).2.2.2 0 (by decide)⟩

/-- A byte below 256 survives the shift codec round trip. -/
theorem byte_roundtrip (b : Nat) (h : b < 256) : ((b + 7) % 256 + 249) % 256 = b := by
  omega

/-- The codec is invertible on byte strings. -/
theorem decrypt_encrypt (v : Bytes) (h : ∀ b ∈ v, b < 256) :
    decrypt_data (encrypt_data v) = v := by
  rw [decrypt_data, encrypt_data, List.map_map]
  have h2 : ∀ b ∈ v, ((b + 7) % 256 + 249) % 256 = b := fun b hb => byte_roundtrip b (h b hb)
  calc v.map (fun b => ((b + 7) % 256 + 249) % 256) = v.map id := List.map_congr_left h2
    _ = v := List.map_id v

/-- C2: storing a value and retrieving it round-trips: the stored bytes are
`encrypt_data v` with `decrypt_data` its inverse, so `get` after `put`
returns the original value. -/
theorem put_get_roundtrip (n : Node) (k : Nat) (v : Bytes) (h : ∀ b ∈ v, b < 256) :
    decrypt_data (encrypt_data v) = v ∧ (n.put k v).get k = some v := by
  refine ⟨decrypt_encrypt v h, ?_⟩
  simp [Node.put, Node.get, alInsert, alLookup, decrypt_encrypt v h]

/-- Witness for C2 at the byte string for "hi". -/
theorem put_get_roundtrip_witness :
    decrypt_data (encrypt_data [104, 105]) = [104, 105] ∧
    ((Node.init 0 4).put 7 [104, 105]).get 7 = some [104, 105] :=
  put_get_roundtrip (Node.init 0 4) 7 [104, 105] (by decide)

/-- C8: a cache lookup right after a store returns the stored node handle,
and a lookup of a key never stored returns the explicit absent value. -/
theorem cache_store_lookup (n : Node) (k ref k' : Nat) (h : ∀ p ∈ n.cache, p.1 ≠ k') :
    (n.cache_store k ref).cache_lookup k = some ref ∧ n.cache_lookup k' = none := by
  constructor
  · simp [Node.cache_store, Node.cache_lookup]
  · have h2 : n.cache.find? (fun p => decide (p.1 = k')) = none :=
      List.find?_eq_none.mpr (fun x hx => by simpa using h x hx)
    simp [Node.cache_lookup, h2]

/-- Witness for C8: store key 42 on a fresh node, then hit it and miss 999. -/
theorem cache_store_lookup_witness :
    ((Node.init 0 4).cache_store 42 5).cache_lookup 42 = some 5 ∧
    (Node.init 0 4).cache_lookup 999 = none :=
  cache_store_lookup (Node.init 0 4) 42 5 999 (by simp [Node.init])

/-- C9: `check_load` is the number of stored keys divided by the ring size
`2 ^ m`, and it is 0 when no data is stored.  In this embedding it is a
plain function of the node, so it cannot modify the node's state. -/
theorem check_load_ratio (n : Node) :
    n.check_load = (n.data.length : ℚ) / ((2 ^ n.m : Nat) : ℚ) ∧
    (n.data = [] → n.check_load = 0) := by
  refine ⟨rfl, ?_⟩
  intro h
  simp [Node.check_load, h]

/-- Witness for C9: a fresh node stores nothing and reports load 0. -/
theorem check_load_ratio_witness : (Node.init 0 4).check_load = 0 :=
  (check_load_ratio (Node.init 0 4)).2 rfl

/-- C10: `update_metrics` increments `lookups` by one, increments
`successful_lookups` by one exactly on success, and increments
`failed_lookups` by one exactly on failure. -/
theorem update_metrics_counters (n : Node) (s : Bool) :
    (n.update_metrics s).metrics.lookups = n.metrics.lookups + 1 ∧
    (n.update_metrics s).metrics.successful_lookups
      = n.metrics.successful_lookups + (if s then 1 else 0) ∧
    (n.update_metrics s).metrics.failed_lookups
      = n.metrics.failed_lookups + (if s then 0 else 1) :=
  ⟨rfl, rfl, rfl⟩

/-! ## Theorems: routing, backup, membership -/

/-- C1: `find_successor` meets the spec's contract: with a dereferenceable
node and fuel to spare, it returns the successor when the key lies in
`(id, successor.id]` and otherwise delegates the lookup to the closest
preceding finger. -/
theorem find_successor_contract (net : Network) (fuel nid key : Nat) (n : Node)
    (h : getNode net nid = some n) :
    find_successor net (fuel + 1) nid key =
      (if in_open_closed (2 ^ n.m) key n.node_id n.successor
       then some n.successor
       else find_successor net fuel (closest_preceding_finger n key) key) := by
  rw [find_successor, h]

/-- Witness for C1 on the lone ring at key 7. -/
theorem find_successor_contract_witness :
    find_successor loneNet 1 0 7 =
      (if in_open_closed (2 ^ (Node.init 0 4).m) 7 (Node.init 0 4).node_id
            (Node.init 0 4).successor
       then some (Node.init 0 4).successor
       else find_successor loneNet 0 (closest_preceding_finger (Node.init 0 4) 7) 7) :=
  find_successor_contract loneNet 0 0 7 (Node.init 0 4) rfl

/-- `updateNode` rewrites exactly the node found under the updated handle,
provided the update keeps the node's identifier. -/
theorem find?_map_update (i : Nat) (f : Node → Node)
    (hf : ∀ x, (f x).node_id = x.node_id) (l : List Node) :
    (l.map (fun x => if x.node_id = i then f x else x)).find? (fun x => x.node_id = i)
      = (l.find? (fun x => x.node_id = i)).map f := by
  induction l with
  | nil => rfl
  | cons x xs ih =>
    by_cases hc : x.node_id = i
    · simp [hc, hf x]
    · simp [hc, ih]

/-- Dereferencing after `updateNode` applies the update to the stored node. -/
theorem getNode_updateNode (net : Network) (i : Nat) (f : Node → Node)
    (hf : ∀ x, (f x).node_id = x.node_id) :
    getNode (updateNode net i f) i = (getNode net i).map f :=
  find?_map_update i f hf net.nodes

/-- C3: `backup_to_successor` places on the node's successor a backup
snapshot holding the node's own identifier together with a full copy of
its data mapping. -/
theorem backup_snapshot (net : Network) (id : Nat) (n s : Node)
    (h1 : getNode net id = some n) (h2 : getNode net n.successor = some s) :
    getNode (backup_to_successor net id) n.successor =
      some { s with backup_data := some { node_id := n.node_id, data := n.data } } := by
  rw [backup_to_successor, h1]
  dsimp only
  rw [getNode_updateNode net n.successor
    (fun s' => { s' with backup_data := some { node_id := n.node_id, data := n.data } })
    (fun x => rfl), h2]
  rfl

/-- Witness for C3 on the lone ring (a lone node is its own successor). -/
theorem backup_snapshot_witness :
    getNode (backup_to_successor loneNet 0) (Node.init 0 4).successor =
      some { Node.init 0 4 with
             backup_data := some { node_id := (Node.init 0 4).node_id,
                                   data := (Node.init 0 4).data } } :=
  backup_snapshot loneNet 0 (Node.init 0 4) (Node.init 0 4) rfl rfl

/-- C7: `delete_node` fails exactly when the id names no node or names the
last remaining node, and on success it returns the graceful leave of the
named node. -/
theorem delete_node_graceful (net : Network) (id : Nat) :
    ((∃ e, delete_node net id = Except.error e) ↔
      (getNode net id = none ∨ net.nodes.length = 1)) ∧
    (∀ net', delete_node net id = Except.ok net' → net' = graceful_leave net id) := by
  constructor
  · constructor
    · rintro ⟨e, he⟩
      by_cases h1 : getNode net id = none
      · exact Or.inl h1
      · by_cases h2 : net.nodes.length = 1
        · exact Or.inr h2
        · rw [delete_node, if_neg h1, if_neg h2] at he
          exact absurd he (by simp)
    · intro h
      by_cases h1 : getNode net id = none
      · exact ⟨DeleteError.nodeNotFound, by rw [delete_node, if_pos h1]⟩
      · rcases h with h | h2
        · exact absurd h h1
        · exact ⟨DeleteError.lastNode, by rw [delete_node, if_neg h1, if_pos h2]⟩
  · intro net' hok
    by_cases h1 : getNode net id = none
    · rw [delete_node, if_pos h1] at hok
      exact absurd hok (by simp)
    · by_cases h2 : net.nodes.length = 1
      · rw [delete_node, if_neg h1, if_pos h2] at hok
        exact absurd hok (by simp)
      · rw [delete_node, if_neg h1, if_neg h2] at hok
        exact (Except.ok.inj hok).symm

/-- Witness for C7: deleting the last remaining node is rejected. -/
theorem delete_node_graceful_witness :
    ∃ e, delete_node loneNet 0 = Except.error e :=
  (delete_node_graceful loneNet 0).1.mpr (Or.inr rfl)

/-! ## The finger-0 invariant is established at creation and preserved by
every quiescent operation (claim C4). -/

/-- A fresh node satisfies the finger-0 invariant when `m ≥ 1`. -/
theorem init_f0 (id m : Nat) (hm : 0 < m) :
    (Node.init id m).fingers_table[0]? = some (Node.init id m).successor := by
  simp [Node.init, List.getElem?_replicate, hm]

/-- `setSuccessor` re-establishes the finger-0 invariant by construction. -/
theorem setSuccessor_f0 (x : Node) (s : Nat)
    (h : x.fingers_table[0]? = some x.successor) :
    (setSuccessor x s).fingers_table[0]? = some (setSuccessor x s).successor := by
  show (x.fingers_table.set 0 s)[0]? = some s
  cases hft : x.fingers_table with
  | nil => rw [hft] at h; simp at h
  | cons a t => simp

/-- Setting a finger entry other than 0 leaves entry 0 unchanged. -/
theorem set_ne_zero_get (t : List Nat) (i v : Nat) (h : i ≠ 0) :
    (t.set i v)[0]? = t[0]? := by
  cases t with
  | nil => simp
  | cons a t' =>
    cases i with
    | zero => exact absurd rfl h
    | succ j => simp

/-- `notify` touches only the predecessor, so it keeps the invariant. -/
theorem notifyNode_f0 (R cand : Nat) (x : Node)
    (h : x.fingers_table[0]? = some x.successor) :
    (notifyNode R cand x).fingers_table[0]? = some (notifyNode R cand x).successor := by
  rw [notifyNode]
  split
  · exact h
  · exact h

/-- `updateNode` keeps the invariant when the update does. -/
theorem updateNode_inv (net : Network) (i : Nat) (f : Node → Node)
    (hf : ∀ x, x.fingers_table[0]? = some x.successor →
      (f x).fingers_table[0]? = some (f x).successor)
    (h : Finger0Inv net) : Finger0Inv (updateNode net i f) := by
  intro y hy
  simp only [updateNode, List.mem_map] at hy
  obtain ⟨x, hx, rfl⟩ := hy
  by_cases hc : x.node_id = i
  · rw [if_pos hc]
    exact hf x (h x hx)
  · rw [if_neg hc]
    exact h x hx

/-- Admitting a node that satisfies the invariant keeps the invariant. -/
theorem appendNode_inv (net : Network) (n : Node)
    (hn : n.fingers_table[0]? = some n.successor)
    (h : Finger0Inv net) : Finger0Inv (appendNode net n) := by
  intro y hy
  simp only [appendNode, List.mem_append, List.mem_singleton] at hy
  rcases hy with hy | rfl
  · exact h y hy
  · exact hn

/-- Removing a node keeps the invariant. -/
theorem removeNode_inv (net : Network) (id : Nat)
    (h : Finger0Inv net) : Finger0Inv (removeNode net id) := by
  intro y hy
  simp only [removeNode] at hy
  exact h y (List.mem_of_mem_filter hy)

/-- Leave step 2 keeps the invariant. -/
theorem predUpdate_inv (net : Network) (p : Option Nat) (s : Nat)
    (h : Finger0Inv net) : Finger0Inv (predUpdate net p s) := by
  cases p with
  | none => exact h
  | some pid => exact updateNode_inv net pid _ (fun x hx => setSuccessor_f0 x s hx) h

/-- Pushing a backup keeps the invariant. -/
theorem backup_to_successor_inv (net : Network) (id : Nat)
    (h : Finger0Inv net) : Finger0Inv (backup_to_successor net id) := by
  unfold backup_to_successor
  cases hg : getNode net id with
  | none => exact h
  | some n => exact updateNode_inv _ _ _ (fun x hx => hx) h

/-- Storing a data item keeps the invariant. -/
theorem put_data_inv (net : Network) (key : Nat) (v : Bytes)
    (h : Finger0Inv net) : Finger0Inv (put_data net key v) := by
  unfold put_data
  cases hf : find_successor net (net_fuel net) net.first_node key with
  | none => exact h
  | some owner => exact updateNode_inv _ _ _ (fun x hx => hx) h

/-- Graceful leave keeps the invariant. -/
theorem graceful_leave_inv (net : Network) (id : Nat)
    (h : Finger0Inv net) : Finger0Inv (graceful_leave net id) := by
  unfold graceful_leave
  cases hg : getNode net id with
  | none => exact h
  | some n =>
    exact removeNode_inv _ _
      (updateNode_inv _ _ _ (fun x hx => hx)
        (predUpdate_inv _ _ _
          (updateNode_inv _ _ _ (fun x hx => hx) h)))

/-- A successful `delete_node` is exactly the graceful leave. -/
theorem delete_ok_eq (net : Network) (id : Nat) (net' : Network)
    (hok : delete_node net id = Except.ok net') : net' = graceful_leave net id := by
  by_cases h1 : getNode net id = none
  · rw [delete_node, if_pos h1] at hok
    exact absurd hok (by simp)
  · by_cases h2 : net.nodes.length = 1
    · rw [delete_node, if_neg h1, if_pos h2] at hok
      exact absurd hok (by simp)
    · rw [delete_node, if_neg h1, if_neg h2] at hok
      exact (Except.ok.inj hok).symm

/-- Stabilize's successor adoption keeps the invariant. -/
theorem stabAdopt_inv (net : Network) (id : Nat) (n s : Node)
    (h : Finger0Inv net) : Finger0Inv (stabAdopt net id n s) := by
  unfold stabAdopt
  cases hp : s.predecessor with
  | none => exact h
  | some x =>
    dsimp only
    split
    · exact updateNode_inv _ _ _ (fun y hy => setSuccessor_f0 y x hy) h
    · exact h

/-- Stabilize's notify step keeps the invariant. -/
theorem stabNotify_inv (net : Network) (id : Nat)
    (h : Finger0Inv net) : Finger0Inv (stabNotify net id) := by
  unfold stabNotify
  cases hg : getNode net id with
  | none => exact h
  | some n1 => exact updateNode_inv _ _ _ (fun x hx => notifyNode_f0 _ _ x hx) h

/-- Stabilize keeps the invariant. -/
theorem stabilize_inv (net : Network) (id : Nat)
    (h : Finger0Inv net) : Finger0Inv (stabilize net id) := by
  unfold stabilize
  cases hg : getNode net id with
  | none => exact h
  | some n =>
    dsimp only
    cases hgs : getNode net n.successor with
    | none => exact h
    | some s => exact stabNotify_inv _ _ (stabAdopt_inv _ _ _ _ h)

/-- Fix-fingers keeps the invariant: index 0 re-copies the successor and
other indices leave entry 0 alone. -/
theorem fix_fingers_inv (net : Network) (id i : Nat)
    (h : Finger0Inv net) : Finger0Inv (fix_fingers net id i) := by
  unfold fix_fingers
  cases hg : getNode net id with
  | none => exact h
  | some n =>
    dsimp only
    by_cases hi : i = 0
    · rw [if_pos hi]
      exact updateNode_inv _ _ _ (fun y hy => setSuccessor_f0 y y.successor hy) h
    · rw [if_neg hi]
      cases hf : find_successor net (net_fuel net) id ((n.node_id + 2 ^ i) % 2 ^ n.m) with
      | none => exact h
      | some f =>
        dsimp only
        split
        · refine updateNode_inv _ _ _ (fun y hy => ?_) h
          show (y.fingers_table.set i f)[0]? = some y.successor
          rw [set_ne_zero_get _ _ _ hi]
          exact hy
        · exact h

/-- Insert keeps the invariant when `m ≥ 1`: the joiner is admitted with
finger 0 already equal to its located successor. -/
theorem insert_node_inv (net : Network) (id : Nat) (hm : 0 < net.m)
    (h : Finger0Inv net) : Finger0Inv (insert_node net id) := by
  unfold insert_node
  split
  · exact h
  · cases hfs : find_successor net (net_fuel net) net.first_node id with
    | none => exact h
    | some sid =>
      dsimp only
      cases hgs : getNode net sid with
      | none => exact h
      | some s =>
        refine appendNode_inv _ _ ?_
          (updateNode_inv _ _ _ (fun x hx => notifyNode_f0 _ _ _ hx) h)
        exact setSuccessor_f0 (Node.init id net.m) sid (init_f0 id net.m hm)

/-! ### `m` is constant across every operation. -/

/-- Leave step 2 keeps `m`. -/
theorem predUpdate_m (net : Network) (p : Option Nat) (s : Nat) :
    (predUpdate net p s).m = net.m := by
  cases p <;> rfl

/-- Backup keeps `m`. -/
theorem backup_to_successor_m (net : Network) (id : Nat) :
    (backup_to_successor net id).m = net.m := by
  unfold backup_to_successor
  cases hg : getNode net id <;> rfl

/-- Graceful leave keeps `m`. -/
theorem graceful_leave_m (net : Network) (id : Nat) :
    (graceful_leave net id).m = net.m := by
  unfold graceful_leave
  cases hg : getNode net id with
  | none => rfl
  | some n => exact predUpdate_m _ _ _

/-- Insert keeps `m`. -/
theorem insert_node_m (net : Network) (id : Nat) : (insert_node net id).m = net.m := by
  unfold insert_node
  split
  · rfl
  · cases hfs : find_successor net (net_fuel net) net.first_node id with
    | none => rfl
    | some sid =>
      dsimp only
      cases hgs : getNode net sid with
      | none => rfl
      | some s => rfl

/-- Stabilize's adoption keeps `m`. -/
theorem stabAdopt_m (net : Network) (id : Nat) (n s : Node) :
    (stabAdopt net id n s).m = net.m := by
  unfold stabAdopt
  cases hp : s.predecessor with
  | none => rfl
  | some x =>
    dsimp only
    split <;> rfl

/-- Stabilize's notify keeps `m`. -/
theorem stabNotify_m (net : Network) (id : Nat) : (stabNotify net id).m = net.m := by
  unfold stabNotify
  cases hg : getNode net id <;> rfl

/-- Stabilize keeps `m`. -/
theorem stabilize_m (net : Network) (id : Nat) : (stabilize net id).m = net.m := by
  unfold stabilize
  cases hg : getNode net id with
  | none => rfl
  | some n =>
    dsimp only
    cases hgs : getNode net n.successor with
    | none => rfl
    | some s => rw [stabNotify_m, stabAdopt_m]

/-- Fix-fingers keeps `m`. -/
theorem fix_fingers_m (net : Network) (id i : Nat) : (fix_fingers net id i).m = net.m := by
  unfold fix_fingers
  cases hg : getNode net id with
  | none => rfl
  | some n =>
    dsimp only
    by_cases hi : i = 0
    · rw [if_pos hi]
      rfl
    · rw [if_neg hi]
      cases hf : find_successor net (net_fuel net) id ((n.node_id + 2 ^ i) % 2 ^ n.m) with
      | none => rfl
      | some f =>
        dsimp only
        split <;> rfl

/-- Storing data keeps `m`. -/
theorem put_data_m (net : Network) (key : Nat) (v : Bytes) :
    (put_data net key v).m = net.m := by
  unfold put_data
  cases hf : find_successor net (net_fuel net) net.first_node key <;> rfl

/-- Every supervisor step keeps `m`. -/
theorem applyOp_m (net : Network) (op : NetOp) : (applyOp net op).m = net.m := by
  cases op with
  | insert id => exact insert_node_m net id
  | delete id =>
    show (match delete_node net id with
          | Except.ok net' => net'
          | Except.error _ => net).m = net.m
    cases hd : delete_node net id with
    | ok net' => rw [delete_ok_eq net id net' hd]; exact graceful_leave_m net id
    | error e => rfl
  | putData k v => exact put_data_m net k v
  | stab id => exact stabilize_m net id
  | fixF id i => exact fix_fingers_m net id i
  | backup id => exact backup_to_successor_m net id

/-- Every supervisor step keeps the invariant (given `m ≥ 1`). -/
theorem applyOp_inv (net : Network) (op : NetOp) (hm : 0 < net.m)
    (h : Finger0Inv net) : Finger0Inv (applyOp net op) := by
  cases op with
  | insert id => exact insert_node_inv net id hm h
  | delete id =>
    show Finger0Inv (match delete_node net id with
          | Except.ok net' => net'
          | Except.error _ => net)
    cases hd : delete_node net id with
    | ok net' => rw [delete_ok_eq net id net' hd]; exact graceful_leave_inv net id h
    | error e => exact h
  | putData k v => exact put_data_inv net k v h
  | stab id => exact stabilize_inv net id h
  | fixF id i => exact fix_fingers_inv net id i h
  | backup id => exact backup_to_successor_inv net id h

/-- Folding the sequential joins of `create` keeps `m`. -/
theorem foldl_insert_m (rest : List Nat) (net : Network) :
    (rest.foldl insert_node net).m = net.m := by
  induction rest generalizing net with
  | nil => rfl
  | cons a t ih => rw [List.foldl_cons, ih, insert_node_m]

/-- Folding the sequential joins of `create` keeps the invariant. -/
theorem foldl_insert_inv (rest : List Nat) (net : Network) (hm : 0 < net.m)
    (h : Finger0Inv net) : Finger0Inv (rest.foldl insert_node net) := by
  induction rest generalizing net with
  | nil => exact h
  | cons a t ih =>
    rw [List.foldl_cons]
    exact ih (insert_node net a) (by rw [insert_node_m]; exact hm)
      (insert_node_inv net a hm h)

/-- `create` produces a network of bit-width `m`. -/
theorem create_m (m : Nat) (ids : List Nat) : (create m ids).m = m := by
  cases ids with
  | nil => rfl
  | cons seed rest => exact foldl_insert_m rest _

/-- `create` establishes the invariant (given `m ≥ 1`). -/
theorem create_inv (m : Nat) (ids : List Nat) (hm : 0 < m) :
    Finger0Inv (create m ids) := by
  cases ids with
  | nil => intro y hy; simp [create] at hy
  | cons seed rest =>
    refine foldl_insert_inv rest _ hm ?_
    intro y hy
    simp only [create, List.mem_singleton] at hy
    subst hy
    exact init_f0 seed m hm

/-- Folding supervisor steps keeps the invariant. -/
theorem foldl_applyOp_inv (ops : List NetOp) (net : Network) (hm : 0 < net.m)
    (h : Finger0Inv net) : Finger0Inv (ops.foldl applyOp net) := by
  induction ops generalizing net with
  | nil => exact h
  | cons op t ih =>
    rw [List.foldl_cons]
    exact ih (applyOp net op) (by rw [applyOp_m]; exact hm) (applyOp_inv net op hm h)

/-- If the invariant holds, the health check's finger-0 condition is true. -/
theorem fingers0Check_eq_true (net : Network) (h : Finger0Inv net) :
    fingers0Check net = true := by
  rw [fingers0Check, List.all_eq_true]
  intro n hn
  simpa using h n hn

/-- C4: after creating a network and running any sequence of quiescent
supervisor operations, every live node's finger entry 0 equals its
successor, and the network health check reports this condition as true. -/
theorem fingers0_invariant (m : Nat) (ids : List Nat) (ops : List NetOp) (hm : 0 < m) :
    Finger0Inv (ops.foldl applyOp (create m ids)) ∧
    ("fingers0_matches_successor", true) ∈
      check_network_health (ops.foldl applyOp (create m ids)) := by
  have hinv : Finger0Inv (ops.foldl applyOp (create m ids)) :=
    foldl_applyOp_inv ops (create m ids) (by rw [create_m]; exact hm)
      (create_inv m ids hm)
  refine ⟨hinv, ?_⟩
  have hc := fingers0Check_eq_true _ hinv
  simp [check_network_health, hc]

/-- Witness for C4: the spec's four-node ring after a join and a round of
stabilization. -/
theorem fingers0_invariant_witness :
    Finger0Inv
      (List.foldl applyOp (create 4 [0, 4, 8, 12])
        [NetOp.insert 2, NetOp.stab 0, NetOp.stab 4, NetOp.fixF 0 2]) ∧
    ("fingers0_matches_successor", true) ∈
      check_network_health
        (List.foldl applyOp (create 4 [0, 4, 8, 12])
          [NetOp.insert 2, NetOp.stab 0, NetOp.stab 4, NetOp.fixF 0 2]) :=
  fingers0_invariant 4 [0, 4, 8, 12]
    [NetOp.insert 2, NetOp.stab 0, NetOp.stab 4, NetOp.fixF 0 2] (by decide)

end Chord
